import Mathlib

/-!
Verification development for the Kademlia DHT node (Go repository).

The Go source is shallowly embedded: each Go function that the claims
touch is translated into a Lean definition of the same name.  Machine
integers that cannot overflow on the claimed inputs are modelled as
`Nat`/`Int`; Go run-time panics (negative or out-of-range slice index,
`Bytes()` on a `nil` `big.Int`, `s[1:]` on an empty slice) are modelled
by returning `none` from an `Option`-valued function, so a `none` result
means "the Go program crashes here".
-/

/-! ## Hex decoding and XOR distance (`internals/kademlia` routing table file)

`decodeHex` in Go is `new(big.Int).SetString(strings.ToUpper(s), 16)`
followed by `.Bytes()`.  `SetString` accepts hex digits of either case
(the `ToUpper` makes that doubly sure) and fails on an empty string or
any non-hex character, in which case the subsequent `.Bytes()` call
dereferences a nil pointer — modelled as `none`.  `.Bytes()` yields the
magnitude, which `SetBytes` turns back into the same natural number, so
the composite is modelled directly at the `Nat` level.
-/

/-- Value of a hex digit given as its character code. -/
def hexValNat (n : Nat) : Option Nat :=
  if 48 ≤ n ∧ n ≤ 57 then some (n - 48)        -- digit 0-9
  else if 97 ≤ n ∧ n ≤ 102 then some (n - 87)  -- letter a-f
  else if 65 ≤ n ∧ n ≤ 70 then some (n - 55)   -- letter A-F
  else none

/-- Value of one hex digit, case-insensitive, as `big.Int.SetString`
with base 16 accepts them (`none` for a non-hex character). -/
def hexVal (c : Char) : Option Nat := hexValNat c.toNat

/-- Big-endian value of a list of hex digits; `none` if any character
is not a hex digit. -/
def hexListVal : List Char → Option Nat
  | [] => some 0
  | c :: cs =>
    match hexVal c, hexListVal cs with
    | some v, some r => some (v * 16 ^ cs.length + r)
    | _, _ => none

/-- Go `decodeHex`: parse the whole string as base-16; the empty string
and strings with a non-hex character make `SetString` fail, and the Go
code then panics on `result.Bytes()` (modelled `none`). -/
def decodeHex (s : String) : Option Nat :=
  if s.data.isEmpty then none else hexListVal s.data

/-- Go `calculateXORDistance`: XOR of the two decoded ids.  `none`
models the panic inside `decodeHex` on an undecodable id. -/
def calculateXORDistance (id1 id2 : String) : Option Nat :=
  match decodeHex id1, decodeHex id2 with
  | some a, some b => some (Nat.xor a b)
  | _, _ => none

/-- Halving recursion for `bitLen`, driven by a fuel argument so the
kernel can evaluate it (the fuel `n` always suffices for input `n`). -/
def bitLenGo : Nat → Nat → Nat
  | 0, _ => 0
  | fuel + 1, m => if m = 0 then 0 else bitLenGo fuel (m / 2) + 1

/-- `big.Int.BitLen` for a non-negative value: the number of binary
digits, 0 for 0. -/
def bitLen (n : Nat) : Nat := bitLenGo n n

/-- Go `getBucketIndex`: `distance.BitLen() - 1` (an `int`, so the
result is `-1` when the distance is zero). -/
def getBucketIndex (distance : Nat) : Int :=
  (bitLen distance : Int) - 1

/-! ## Data model (`pkg/models`) -/

/-- `models.Node`. -/
structure Node where
  ID : String
  IP : String
  Port : Int
  LastSeen : Int := 0
deriving DecidableEq, Repr

/-- `models.Bucket`. -/
structure Bucket where
  Nodes : List Node
  MaxSize : Int
deriving DecidableEq, Repr

/-- `models.RoutingTable`. -/
structure RoutingTable where
  Buckets : List Bucket
deriving DecidableEq, Repr

/-! ## Process-wide constant `k` (`pkg/constants`)

The Go package holds one mutable `kValue` behind a mutex; it is modelled
by threading the current value explicitly. -/

/-- Initial value of the Go global `kValue` (`kValue = 1` in the
source). -/
def initialKState : Int := 1

/-- Go `constants.GetK`: read the current `kValue`. -/
def GetK (kState : Int) : Int := kState

/-- Go `constants.SetK`: replace the current `kValue`. -/
def SetK (_kState value : Int) : Int := value

/-! ## Routing table operations (`internals/kademlia`) -/

/-- Go `NewRoutingTable`: `len(nodeID)*4` empty buckets, each with
`MaxSize` read from `constants.GetK()`. -/
def NewRoutingTable (nodeID : String) (kState : Int) : RoutingTable :=
  ⟨List.replicate (nodeID.length * 4) ⟨[], GetK kState⟩⟩

/-- Go `AddNodeToRoutingTable`.  `none` models a run-time panic: either
`decodeHex` fails on an undecodable id, the bucket index is out of range
(in particular `-1` when `target.ID` decodes equal to `localID` — the
code has no guard), or `Nodes[1:]` is taken on an empty full bucket. -/
def AddNodeToRoutingTable (rt : RoutingTable) (target : Node) (localID : String) :
    Option RoutingTable :=
  match calculateXORDistance localID target.ID with
  | none => none
  | some distance =>
    let bucketIndex := getBucketIndex distance
    if hvalid : 0 ≤ bucketIndex ∧ bucketIndex.toNat < rt.Buckets.length then
      let bucket := rt.Buckets.get ⟨bucketIndex.toNat, hvalid.2⟩
      -- Ensure no duplicate entries
      if bucket.Nodes.any (fun n => n.ID = target.ID) then some rt
      -- Add node if bucket is not full
      else if (bucket.Nodes.length : Int) < bucket.MaxSize then
        some ⟨rt.Buckets.set bucketIndex.toNat { bucket with Nodes := bucket.Nodes ++ [target] }⟩
      else
        -- Handle full bucket: drop the head (FIFO) and append at the tail
        match bucket.Nodes with
        | [] => none  -- Nodes[1:] on an empty zero-capacity bucket panics
        | _ :: rest =>
          some ⟨rt.Buckets.set bucketIndex.toNat { bucket with Nodes := rest ++ [target] }⟩
    else none

/-- Insert one (node, distance) pair into a list sorted ascending by
distance, after all entries of equal distance — exactly where the
insertion sort used by Go `sort.Slice` (whose comparator is the strict
`Distance.Cmp < 0` and which runs plain insertion sort on slices of
fewer than 12 elements, and is otherwise an unstable sort whose tie
order the source does not fix) puts a later element. -/
def insertByDist (p : Node × Nat) : List (Node × Nat) → List (Node × Nat)
  | [] => [p]
  | q :: qs => if p.2 < q.2 then p :: q :: qs else q :: insertByDist p qs

/-- Sort (node, distance) pairs ascending by distance, stable. -/
def sortPairs (l : List (Node × Nat)) : List (Node × Nat) :=
  l.foldl (fun acc p => insertByDist p acc) []

set_option linter.unusedVariables false in
/-- Go `FindClosestNodes`: collect every node of every bucket with its
distance to `queryID`, sort ascending by distance, return the first
`k = constants.GetK()` of them.  `none` models the panic when some
collected id (or the query id) fails to decode, or when
`make([]*models.Node, 0, k)` is given a negative capacity.  The
`localID` parameter is unused, as in the source. -/
def FindClosestNodes (routingTable : RoutingTable) (queryID localID : String)
    (kState : Int) : Option (List Node) :=
  let all := routingTable.Buckets.flatMap (fun b => b.Nodes)
  match all.mapM (fun n => (calculateXORDistance queryID n.ID).map (fun d => (n, d))) with
  | none => none
  | some distances =>
    let k := GetK kState
    if k < 0 then none  -- make with negative capacity panics
    else some (((sortPairs distances).take k.toNat).map Prod.fst)

/-! ## Key-value store (`pkg/models/kvstore.go`)

`KeyValueStore` wraps a Go map under a reader-writer mutex; its
observable behaviour is lookup, modelled by an association list whose
`Set` overwrites. -/

/-- The key-value store, observably a finite map. -/
def KVStore := List (String × String)
deriving DecidableEq

/-- Go `KeyValueStore.Set`: unconditional overwrite. -/
def kvSet (kv : KVStore) (key value : String) : KVStore :=
  (key, value) :: kv.filter (fun p => p.1 ≠ key)

/-- Go `KeyValueStore.Get` / the `Store[key]` map read. -/
def kvGet (kv : KVStore) (key : String) : Option String :=
  (kv.find? (fun p => p.1 = key)).map Prod.snd

/-! ## Id validation (`internals/validator`)

`HexadecimalValidator` demands length 40 and the pattern
`^[a-fA-F0-9]{40}$`; on a length-40 string the pattern holds exactly
when every character is a hex digit. -/

/-- The two failure kinds of `ValidateID`. -/
inductive IdError where
  | invalidLength
  | invalidFormat
deriving DecidableEq, Repr

/-- Go `validators.ValidateID` with `HexadecimalValidator`: `none`
means the id is accepted. -/
def ValidateID (id : String) : Option IdError :=
  if id.length ≠ 40 then some .invalidLength
  else if id.data.all (fun c => (hexVal c).isSome) then none
  else some .invalidFormat

/-! ## `strconv.Atoi`

Optional single sign followed by at least one decimal digit.  Go
additionally errors on 64-bit overflow; every caller here rejects any
value outside `1..=65535` right after the call, so the observable
behaviour is unchanged by modelling the value exactly. -/

/-- Decimal value of a digit string (`none` if empty or non-digit). -/
def digitsVal : List Char → Option Nat
  | [] => none
  | [c] => if 48 ≤ c.toNat ∧ c.toNat ≤ 57 then some (c.toNat - 48) else none
  | c :: cs =>
    match (if 48 ≤ c.toNat ∧ c.toNat ≤ 57 then some (c.toNat - 48) else none), digitsVal cs with
    | some v, some r => some (v * 10 ^ cs.length + r)
    | _, _ => none

/-- Go `strconv.Atoi`. -/
def atoi (s : String) : Option Int :=
  match s.data with
  | '-' :: t => (digitsVal t).map (fun n => -(n : Int))
  | '+' :: t => (digitsVal t).map (fun n => (n : Int))
  | t => (digitsVal t).map (fun n => (n : Int))

/-! ## RPC handlers (`internals/kademlia/handlers.go`, the version wired
by `cmd.StartServer`)

A handler is a function of the request, the node, the store and the
routing table; the HTTP side is abstracted into small request/response
types.  `Option` again models run-time panics. -/

/-- PING request: the two query parameters (`""` = absent, as
`r.URL.Query().Get` returns) and the outcome of
`net.SplitHostPort(r.RemoteAddr)`. -/
structure PingRequest where
  id : String
  port : String
  remoteIP : Option String
deriving DecidableEq, Repr

/-- PING response alternatives. -/
inductive PingResponse where
  | invalidPort                       -- 400 "Invalid UDP port provided"
  | ipError                           -- 500 "Failed to extract IP address"
  | pong (message nodeId : String)    -- 200 JSON pong
deriving DecidableEq, Repr

/-- Go `PingHandler` (five-argument version registered on `/ping`):
returns the response together with the routing table after any
insertion of the sender. -/
def PingHandler (req : PingRequest) (node : Node) (routingTable : RoutingTable) :
    Option (PingResponse × RoutingTable) :=
  if req.id ≠ "" ∧ req.port ≠ "" then
    match atoi req.port with
    | none => some (.invalidPort, routingTable)
    | some p =>
      if p ≤ 0 ∨ 65535 < p then some (.invalidPort, routingTable)
      else
        match req.remoteIP with
        | none => some (.ipError, routingTable)
        | some ip =>
          (AddNodeToRoutingTable routingTable ⟨req.id, ip, p, 0⟩ node.ID).map
            (fun rt2 => (.pong "pong" node.ID, rt2))
  else some (.pong "pong" node.ID, routingTable)

/-- STORE request body as the handler sees it after `io.ReadAll` and
`json.Unmarshal`: a read failure, a JSON parse failure, or the decoded
`{key, value}` pair (absent JSON fields decode to `""`). -/
inductive StoreBody where
  | readErr
  | badJson
  | kv (key value : String)
deriving DecidableEq, Repr

/-- STORE request: HTTP method plus body. -/
structure StoreRequest where
  method : String
  body : StoreBody
deriving DecidableEq, Repr

/-- STORE response alternatives. -/
inductive StoreResponse where
  | methodNotAllowed                  -- 405 "Invalid request method"
  | readError                         -- 500 "Failed to read request body"
  | invalidPayload                    -- 400 "Invalid JSON payload"
  | invalidKeyFormat                  -- 400 "Invalid Key format"
  | redirect (closest : List Node)    -- 200 JSON list of closest nodes
  | stored (key value : String)       -- 201 "Stored key: ..., value: ..."
deriving DecidableEq, Repr

/-- Go `StoreHandler` (five-argument version registered on `/store`):
returns the response together with the store after any write. -/
def StoreHandler (req : StoreRequest) (node : Node) (storage : KVStore)
    (routingTable : RoutingTable) (kState : Int) : Option (StoreResponse × KVStore) :=
  if req.method ≠ "POST" then some (.methodNotAllowed, storage)
  else
    match req.body with
    | .readErr => some (.readError, storage)
    | .badJson => some (.invalidPayload, storage)
    | .kv key value =>
      if key = "" ∨ value = "" then some (.invalidPayload, storage)
      else
        match ValidateID key with
        | some _ => some (.invalidKeyFormat, storage)
        | none =>
          match FindClosestNodes routingTable key node.ID kState with
          | none => none
          | some closestNodes =>
            if closestNodes.any (fun peer => peer.ID = node.ID) then
              some (.stored key value, kvSet storage key value)
            else
              some (.redirect closestNodes, storage)

/-- FIND_VALUE request: the `key` query parameter. -/
structure FindValueRequest where
  key : String
deriving DecidableEq, Repr

/-- FIND_VALUE response alternatives. -/
inductive FindValueResponse where
  | missingKey                        -- 400 "Missing 'key' parameter"
  | invalidKeyFormat                  -- 400 "Invalid Key format"
  | value (v : String)                -- 200 JSON string
  | nodes (closest : List Node)       -- 200 JSON list of closest nodes
deriving DecidableEq, Repr

/-- Go `FindValueHandler` (five-argument version registered on
`/find_value`). -/
def FindValueHandler (req : FindValueRequest) (node : Node) (storage : KVStore)
    (routingTable : RoutingTable) (kState : Int) : Option FindValueResponse :=
  if req.key = "" then some .missingKey
  else
    match ValidateID req.key with
    | some _ => some .invalidKeyFormat
    | none =>
      match kvGet storage req.key with
      | some v => some (.value v)
      | none =>
        (FindClosestNodes routingTable req.key node.ID kState).map (fun ns => .nodes ns)

/-! ## Bootstrap join (`internals/kademlia`, `JoinNetwork`)

The HTTP round trip is abstracted into the observed outcome of
`http.Get` plus the JSON decode of the PONG body. -/

/-- Go `strings.Split(s, ":")` on the character list: split at every
colon.  The result is always non-empty. -/
def splitColonChars : List Char → List (List Char)
  | [] => [[]]
  | c :: rest =>
    match splitColonChars rest with
    | [] => [[c]]  -- unreachable: the result is never empty
    | h :: t => if c = ':' then [] :: h :: t else (c :: h) :: t

/-- Go `strings.Split(s, ":")`. -/
def splitColon (s : String) : List String :=
  (splitColonChars s.data).map String.mk

/-- Decode outcome of the PONG body (missing JSON fields decode to
`""`). -/
inductive PongBody where
  | decodeErr
  | pong (message nodeId : String)
deriving DecidableEq, Repr

/-- Outcome of `http.Get` on the bootstrap `/ping` URL. -/
inductive HttpResult where
  | failure                            -- transport error
  | response (status : Nat) (body : PongBody)
deriving DecidableEq, Repr

/-- Go `JoinNetwork`: parse `bootstrapAddr`, ping the bootstrap node,
decode the PONG, reject an empty `node_id`, insert the bootstrap
contact.  The outer `Option` models the panic inside
`AddNodeToRoutingTable` on an undecodable id; `Except` carries the
returned `error`. -/
def JoinNetwork (node : Node) (routingTable : RoutingTable) (bootstrapAddr : String)
    (res : HttpResult) : Option (Except String RoutingTable) :=
  let parts := splitColon bootstrapAddr
  if h2 : parts.length = 2 then
    let ip := parts.get ⟨0, by omega⟩
    match atoi (parts.get ⟨1, by omega⟩) with
    | none => some (.error "invalid port in bootstrap address")
    | some port =>
      match res with
      | .failure => some (.error "failed to join network")
      | .response status body =>
        if status ≠ 200 then some (.error "failed to join network")
        else
          match body with
          | .decodeErr => some (.error "failed to decode response from bootstrap node")
          | .pong _ nodeId =>
            if nodeId = "" then
              some (.error "invalid response from bootstrap node: missing node ID")
            else
              (AddNodeToRoutingTable routingTable ⟨nodeId, ip, port, 0⟩ node.ID).map
                (fun rt2 => .ok rt2)
  else some (.error "invalid bootstrap address format, expected <ip>:<port>")

deriving instance DecidableEq for Except

/-- The bucket index `AddNodeToRoutingTable` computes for an id, as a
natural number; `none` when the distance is undecodable or the index is
negative. -/
def bucketIndexOf (localID id : String) : Option Nat :=
  match calculateXORDistance localID id with
  | none => none
  | some d => if 0 ≤ getBucketIndex d then some (getBucketIndex d).toNat else none

/-! ## Sequences of routing-table insertions -/

/-- Run `AddNodeToRoutingTable` over a list of contacts in order;
`none` as soon as one call panics. -/
def addAll (rt : RoutingTable) (contacts : List Node) (localID : String) :
    Option RoutingTable :=
  contacts.foldlM (fun r c => AddNodeToRoutingTable r c localID) rt

/-- Invariant of routing tables reachable by insertions: every bucket
has the construction-time capacity, holds no more nodes than that
capacity, holds only nodes whose computed bucket index is its own
position, and holds no id twice. -/
structure RTInv (localID : String) (k : Int) (rt : RoutingTable) : Prop where
  cap : ∀ b ∈ rt.Buckets, b.MaxSize = k
  size : ∀ b ∈ rt.Buckets, b.Nodes.length ≤ b.MaxSize.toNat
  place : ∀ (i : Nat) (hi : i < rt.Buckets.length),
    ∀ n ∈ rt.Buckets[i].Nodes, bucketIndexOf localID n.ID = some i
  nodup : ∀ b ∈ rt.Buckets, (b.Nodes.map Node.ID).Nodup

/-! ## Case-variance of ids

`CharCaseEq c d` says the two characters are equal up to ASCII letter
case (one may be the upper-case form of the other). -/

/-- Two characters equal up to ASCII letter case. -/
def CharCaseEq (c d : Char) : Prop :=
  c = d ∨ (c.toNat + 32 = d.toNat ∧ 65 ≤ c.toNat ∧ c.toNat ≤ 90)
    ∨ (d.toNat + 32 = c.toNat ∧ 65 ≤ d.toNat ∧ d.toNat ≤ 90)

instance (c d : Char) : Decidable (CharCaseEq c d) := by
  unfold CharCaseEq; infer_instance

/-! ## Concrete inputs used by witnesses and counterexamples -/

/-- An all-zero 40-hex id. -/
def zeros40 : String := "0000000000000000000000000000000000000000"

/-- A 40-hex id ending in `ab` (lower case). -/
def idab : String := "00000000000000000000000000000000000000ab"

/-- The same id with the hex letters upper-cased. -/
def idABu : String := "00000000000000000000000000000000000000AB"

/-- A 40-hex id ending in `aa`. -/
def idaa : String := "00000000000000000000000000000000000000aa"

/-- A 40-hex id of value 1. -/
def id01 : String := "0000000000000000000000000000000000000001"

/-- A local node with the all-zero id. -/
def nodeSelfW : Node := ⟨zeros40, "127.0.0.1", 8080, 0⟩

/-- A one-bucket table that contains the local node itself (the STORE
proximity branch compares against the table's contents, so exercising
the accept branch needs such a table). -/
def rtSelfW : RoutingTable := ⟨[⟨[nodeSelfW], 1⟩]⟩

/-- A fresh 160-bucket table for the all-zero local id, capacity 1. -/
def rtPing : RoutingTable := NewRoutingTable zeros40 1

/-- A PING request self-identifying with the invalid id `"ab"` and a
valid port. -/
def pingReqC3 : PingRequest := ⟨"ab", "9000", some "10.0.0.2"⟩

/-- The table after the PING handler has inserted the invalid-id
sender. -/
def rtPingAfter : RoutingTable :=
  (AddNodeToRoutingTable rtPing ⟨"ab", "10.0.0.2", 9000, 0⟩ zeros40).getD ⟨[]⟩

/-- The table after a join whose PONG carried the invalid node id
`"ab"`. -/
def rtJoinRes : RoutingTable :=
  (AddNodeToRoutingTable rtPing ⟨"ab", "127.0.0.1", 8080, 0⟩ zeros40).getD ⟨[]⟩

/-- A contact with id `idab` (bucket 7 for the all-zero local id). -/
def nodeIdab : Node := ⟨idab, "10.0.0.3", 7001, 0⟩

/-- A contact with id `idaa` (also bucket 7 for the all-zero local
id). -/
def nodeIdaa : Node := ⟨idaa, "10.0.0.4", 7002, 0⟩

/-- The capacity-1 table holding `nodeIdab` in bucket 7: that bucket is
full. -/
def rtC6 : RoutingTable := (AddNodeToRoutingTable rtPing nodeIdab zeros40).getD ⟨[]⟩

/-- A contact whose id is `idab` with the hex letters upper-cased: a
distinct string at the same XOR distance, mapping to the same
bucket. -/
def nodeABu : Node := ⟨idABu, "10.0.0.5", 7003, 0⟩

/-- A capacity-2 table holding the two case-variant contacts, lower
case first. -/
def rtC4 : RoutingTable :=
  (addAll (NewRoutingTable zeros40 2) [nodeIdab, nodeABu] zeros40).getD ⟨[]⟩

/-- A capacity-1 table after two insertions into the same bucket (the
second one evicts the first). -/
def rtC5w : RoutingTable :=
  (addAll (NewRoutingTable zeros40 1) [nodeIdab, nodeIdaa] zeros40).getD ⟨[]⟩

/-! ## Helper lemmas -/

theorem hexValNat_shift {m n : Nat} (h1 : m + 32 = n) (h2 : 65 ≤ m) (h3 : m ≤ 90) :
    hexValNat m = hexValNat n := by
  simp only [hexValNat]
  split_ifs <;> first | rfl | (exfalso; omega) | (simp only [Option.some.injEq]; omega)

theorem hexVal_eq_of_caseEq {c d : Char} (h : CharCaseEq c d) : hexVal c = hexVal d := by
  rcases h with rfl | ⟨h1, h2, h3⟩ | ⟨h1, h2, h3⟩
  · rfl
  · exact hexValNat_shift h1 h2 h3
  · exact (hexValNat_shift h1 h2 h3).symm

theorem hexListVal_eq_of_caseEq (cs : List Char) :
    ∀ ds : List Char, cs.length = ds.length →
      (∀ p ∈ cs.zip ds, CharCaseEq p.1 p.2) → hexListVal cs = hexListVal ds := by
  induction cs with
  | nil =>
    intro ds hlen _
    rw [List.length_nil] at hlen
    rw [List.length_eq_zero.mp hlen.symm]
  | cons c cs ih =>
    intro ds hlen hzip
    cases ds with
    | nil => simp at hlen
    | cons d ds =>
      have hcd : CharCaseEq c d := hzip (c, d) (by simp)
      have hlen2 : cs.length = ds.length := by simpa using hlen
      have ihh := ih ds hlen2 (fun p hp => hzip p (by simp [hp]))
      simp only [hexListVal, hexVal_eq_of_caseEq hcd, ihh, hlen2]

theorem decodeHex_eq_of_caseEq {a b : String} (hlen : a.data.length = b.data.length)
    (hzip : ∀ p ∈ a.data.zip b.data, CharCaseEq p.1 p.2) : decodeHex a = decodeHex b := by
  unfold decodeHex
  rw [hexListVal_eq_of_caseEq a.data b.data hlen hzip]
  have hemp : a.data.isEmpty = b.data.isEmpty := by
    cases ha : a.data <;> cases hb : b.data <;> simp_all
  rw [hemp]

/-! ## Claim C10 -/

/-- Claim C10: XOR distance is invariant under hexadecimal letter case
— for ids that differ only in the case of their letters,
`calculateXORDistance` (and hence the bucket index derived from it) is
unchanged, because `decodeHex` parses case-insensitively. -/
theorem xorDistance_case_insensitive (a b a2 b2 : String)
    (hal : a.data.length = a2.data.length)
    (haz : ∀ p ∈ a.data.zip a2.data, CharCaseEq p.1 p.2)
    (hbl : b.data.length = b2.data.length)
    (hbz : ∀ p ∈ b.data.zip b2.data, CharCaseEq p.1 p.2) :
    calculateXORDistance a b = calculateXORDistance a2 b2 ∧
    (calculateXORDistance a b).map getBucketIndex
      = (calculateXORDistance a2 b2).map getBucketIndex := by
  have h1 := decodeHex_eq_of_caseEq hal haz
  have h2 := decodeHex_eq_of_caseEq hbl hbz
  constructor
  · simp only [calculateXORDistance, h1, h2]
  · simp only [calculateXORDistance, h1, h2]

/-- Witness for C10 at a concrete pair of case-variant ids. -/
theorem xorDistance_case_insensitive_witness :
    calculateXORDistance idab zeros40 = calculateXORDistance idABu zeros40 ∧
    (calculateXORDistance idab zeros40).map getBucketIndex
      = (calculateXORDistance idABu zeros40).map getBucketIndex :=
  xorDistance_case_insensitive idab zeros40 idABu zeros40 (by decide) (by decide)
    (by decide) (by decide)

/-! ## Claim C1 -/

/-- Claim C1 (the code contradicts it): for a contact whose id equals
the local node's id, `AddNodeToRoutingTable` computes bucket index `-1`
— and then evaluates `rt.Buckets[-1]`, which panics (modelled as
`none`), instead of returning without change.  `main.go` line 46 makes
exactly this call at startup. -/
theorem addNode_self_panics (rt : RoutingTable) (localID ip : String) (port lastSeen : Int)
    (h : (decodeHex localID).isSome) :
    calculateXORDistance localID localID = some 0 ∧
    getBucketIndex 0 = -1 ∧
    AddNodeToRoutingTable rt ⟨localID, ip, port, lastSeen⟩ localID = none := by
  obtain ⟨v, hv⟩ := Option.isSome_iff_exists.mp h
  have hcalc : calculateXORDistance localID localID = some 0 := by
    simp only [calculateXORDistance, hv]
    exact congrArg some (Nat.xor_self v)
  have hneg : ¬ (0 ≤ getBucketIndex 0 ∧ (getBucketIndex 0).toNat < rt.Buckets.length) := by
    rintro ⟨h0, -⟩
    norm_num [getBucketIndex, bitLen, bitLenGo] at h0
  refine ⟨hcalc, rfl, ?_⟩
  simp only [AddNodeToRoutingTable, hcalc, dif_neg hneg]

/-- Witness for C1: the self-insertion performed by `main.go` with an
all-zero local id crashes. -/
theorem addNode_self_panics_witness :
    calculateXORDistance zeros40 zeros40 = some 0 ∧
    getBucketIndex 0 = -1 ∧
    AddNodeToRoutingTable (NewRoutingTable zeros40 1) ⟨zeros40, "127.0.0.1", 8080, 0⟩ zeros40
      = none :=
  addNode_self_panics (NewRoutingTable zeros40 1) zeros40 "127.0.0.1" 8080 0 (by decide)

/-! ## Claim C9 -/

/-- Claim C9 counterexample: before any call to `SetK`, `GetK` returns
1 (the source initialises `kValue = 1`), not 20, and a routing table
constructed in that state has buckets of capacity 1, not 20. -/
theorem getK_default_not_twenty :
    GetK initialKState = 1 ∧ GetK initialKState ≠ 20 ∧
    ¬ (∀ b ∈ (NewRoutingTable zeros40 initialKState).Buckets, b.MaxSize = 20) := by
  refine ⟨rfl, by decide, ?_⟩
  intro hall
  have h1 := hall ⟨[], 1⟩ (by decide)
  exact absurd h1 (by decide)

/-- Claim C9 (amended): before any call to `SetK`, `GetK` returns the
default bucket size 1, and buckets in a routing table constructed
before any `SetK` have capacity 1. -/
theorem getK_default (nodeID : String) :
    GetK initialKState = 1 ∧
    ∀ b ∈ (NewRoutingTable nodeID initialKState).Buckets, b.MaxSize = 1 := by
  refine ⟨rfl, ?_⟩
  intro b hb
  simp only [NewRoutingTable] at hb
  rw [List.eq_of_mem_replicate hb]
  rfl

/-- Witness for C9 (amended) at a concrete node id. -/
theorem getK_default_witness :
    GetK initialKState = 1 ∧ (⟨[], 1⟩ : Bucket).MaxSize = 1 :=
  ⟨(getK_default "00").1, (getK_default "00").2 ⟨[], 1⟩ (by decide)⟩

/-! ## Claims C2 and C7 -/

theorem validateID_ne_empty {key : String} (h : ValidateID key = none) : key ≠ "" := by
  intro h0
  rw [h0] at h
  exact absurd h (by decide)

theorem kvGet_kvSet (kv : KVStore) (key value : String) :
    kvGet (kvSet kv key value) key = some value := by
  simp [kvGet, kvSet, List.find?]

/-- Claim C2: on a well-formed STORE request (valid 40-hex key,
non-empty value) the handler computes the closest nodes to the key; if
the local id appears among them it persists the pair and answers
`stored` (201), otherwise it answers with the closest list and leaves
the store untouched. -/
theorem storeHandler_proximity (req : StoreRequest) (node : Node) (storage : KVStore)
    (rt : RoutingTable) (kState : Int) (key value : String) (closest : List Node)
    (hm : req.method = "POST") (hb : req.body = .kv key value)
    (hkey : ValidateID key = none) (hval : value ≠ "")
    (hcl : FindClosestNodes rt key node.ID kState = some closest) :
    (closest.any (fun peer => peer.ID = node.ID) = true →
      StoreHandler req node storage rt kState
          = some (.stored key value, kvSet storage key value) ∧
      kvGet (kvSet storage key value) key = some value) ∧
    (closest.any (fun peer => peer.ID = node.ID) = false →
      StoreHandler req node storage rt kState = some (.redirect closest, storage)) := by
  have hne : key ≠ "" := validateID_ne_empty hkey
  constructor
  · intro hin
    refine ⟨?_, kvGet_kvSet storage key value⟩
    simp [StoreHandler, hm, hb, hkey, hcl, hne, hval, hin]
  · intro hout
    simp [StoreHandler, hm, hb, hkey, hcl, hne, hval, hout]

/-- Witness for C2: a node whose table contains itself accepts a STORE
and the value becomes readable. -/
theorem storeHandler_proximity_witness :
    (StoreHandler ⟨"POST", .kv id01 "hello"⟩ nodeSelfW [] rtSelfW 1
        = some (.stored id01 "hello", kvSet [] id01 "hello") ∧
      kvGet (kvSet [] id01 "hello") id01 = some "hello") :=
  (storeHandler_proximity ⟨"POST", .kv id01 "hello"⟩ nodeSelfW [] rtSelfW 1 id01 "hello"
      [nodeSelfW] rfl rfl (by decide) (by decide) (by decide)).1 (by decide)

/-- Claim C7: on a well-formed FIND_VALUE request the response is the
stored value when the key is present in the store, and otherwise the
closest-contacts list — never both, never neither. -/
theorem findValueHandler_dichotomy (req : FindValueRequest) (node : Node) (storage : KVStore)
    (rt : RoutingTable) (kState : Int) (closest : List Node)
    (hkey : ValidateID req.key = none)
    (hcl : FindClosestNodes rt req.key node.ID kState = some closest) :
    (∀ v, kvGet storage req.key = some v →
      FindValueHandler req node storage rt kState = some (.value v)) ∧
    (kvGet storage req.key = none →
      FindValueHandler req node storage rt kState = some (.nodes closest)) := by
  have hne : req.key ≠ "" := validateID_ne_empty hkey
  constructor
  · intro v hv
    simp [FindValueHandler, hne, hkey, hv]
  · intro hv
    simp [FindValueHandler, hne, hkey, hv, hcl]

/-- Witness for C7: with the key present the handler returns the
value. -/
theorem findValueHandler_dichotomy_witness :
    FindValueHandler ⟨id01⟩ nodeSelfW (kvSet [] id01 "hello") rtSelfW 1
      = some (.value "hello") :=
  (findValueHandler_dichotomy ⟨id01⟩ nodeSelfW (kvSet [] id01 "hello") rtSelfW 1 [nodeSelfW]
      (by decide) (by decide)).1 "hello" (by decide)

/-! ## Claim C3 -/

set_option maxRecDepth 20000 in
/-- Claim C3 counterexample: a PING whose sender id `"ab"` fails
`ValidateID` but whose port is valid is not rejected — the handler
answers pong (200) and inserts the invalid id into the routing
table. -/
theorem pingHandler_skips_id_validation :
    ValidateID "ab" = some .invalidLength ∧
    PingHandler pingReqC3 nodeSelfW rtPing = some (.pong "pong" zeros40, rtPingAfter) ∧
    ((rtPingAfter.Buckets.flatMap (fun b => b.Nodes)).map Node.ID).contains "ab" = true := by
  exact ⟨by decide, by decide, by decide⟩

/-- Claim C3 (amended): when both sender id and port are present the
port must parse to 1..=65535 or the handler rejects with 400; the
sender id itself is never validated.  When at most one of the two is
present the handler answers pong without error and without touching the
table.  The table changes only by the insertion of the self-identified
sender under a valid port. -/
theorem pingHandler_validation (req : PingRequest) (node : Node) (rt : RoutingTable) :
    (¬ (req.id ≠ "" ∧ req.port ≠ "") →
      PingHandler req node rt = some (.pong "pong" node.ID, rt)) ∧
    (req.id ≠ "" → req.port ≠ "" →
      (∀ p, atoi req.port = some p → p ≤ 0 ∨ 65535 < p) →
      PingHandler req node rt = some (.invalidPort, rt)) ∧
    (∀ resp rt2, PingHandler req node rt = some (resp, rt2) → rt2 ≠ rt →
      ∃ p ip, atoi req.port = some p ∧ 0 < p ∧ p ≤ 65535 ∧ req.remoteIP = some ip ∧
        AddNodeToRoutingTable rt ⟨req.id, ip, p, 0⟩ node.ID = some rt2 ∧
        resp = .pong "pong" node.ID) := by
  refine ⟨?_, ?_, ?_⟩
  · intro hno
    simp [PingHandler, hno]
  · intro hid hport hbad
    simp only [PingHandler, if_pos (And.intro hid hport)]
    cases hatoi : atoi req.port with
    | none => rfl
    | some p =>
      have := hbad p hatoi
      simp [this]
  · intro resp rt2 heq hne
    unfold PingHandler at heq
    split at heq
    · split at heq
      · exact absurd (by injection heq with h; exact (congrArg Prod.snd h).symm) hne
      · rename_i p hatoi
        split at heq
        · exact absurd (by injection heq with h; exact (congrArg Prod.snd h).symm) hne
        · rename_i hrange
          split at heq
          · exact absurd (by injection heq with h; exact (congrArg Prod.snd h).symm) hne
          · rename_i ip hip
            cases hadd : AddNodeToRoutingTable rt ⟨req.id, ip, p, 0⟩ node.ID with
            | none => rw [hadd] at heq; exact absurd heq (by simp)
            | some rt3 =>
              rw [hadd] at heq
              simp only [Option.map_some', Option.some.injEq, Prod.mk.injEq] at heq
              refine ⟨p, ip, hatoi, by omega, by omega, hip, ?_, heq.1.symm⟩
              rw [hadd, heq.2]
    · exact absurd (by injection heq with h; exact (congrArg Prod.snd h).symm) hne

/-- Witness for C3 (amended): an anonymous PING answers pong and leaves
the table unchanged. -/
theorem pingHandler_validation_witness :
    PingHandler ⟨"", "", none⟩ nodeSelfW rtPing = some (.pong "pong" zeros40, rtPing) :=
  (pingHandler_validation ⟨"", "", none⟩ nodeSelfW rtPing).1 (by decide)

/-! ## Claim C8 -/

set_option maxRecDepth 20000 in
/-- Claim C8 counterexample: a join whose PONG carries the node id
`"ab"` — non-empty but failing `ValidateID` — succeeds and inserts the
invalid id into the routing table, instead of failing with a malformed
response error. -/
theorem joinNetwork_accepts_invalid_id :
    ValidateID "ab" = some .invalidLength ∧
    JoinNetwork nodeSelfW rtPing "127.0.0.1:8080" (.response 200 (.pong "pong" "ab"))
      = some (.ok rtJoinRes) ∧
    ((rtJoinRes.Buckets.flatMap (fun b => b.Nodes)).map Node.ID).contains "ab" = true := by
  exact ⟨by decide, by decide, by decide⟩

/-- Claim C8 (amended): once the PONG is received with status 200 and
parsed, join fails only when the extracted node id is the empty string;
any non-empty node id — validated or not — is inserted into the routing
table. -/
theorem joinNetwork_nodeId_check (node : Node) (rt : RoutingTable) (addr ip portStr : String)
    (port : Int) (m nodeId : String)
    (hsplit : splitColon addr = [ip, portStr])
    (hport : atoi portStr = some port) :
    (JoinNetwork node rt addr (.response 200 (.pong m ""))
        = some (.error "invalid response from bootstrap node: missing node ID")) ∧
    (nodeId ≠ "" →
      JoinNetwork node rt addr (.response 200 (.pong m nodeId))
        = (AddNodeToRoutingTable rt ⟨nodeId, ip, port, 0⟩ node.ID).map
            (fun rt2 => .ok rt2)) := by
  constructor
  · simp [JoinNetwork, hsplit, hport]
  · intro hne
    simp [JoinNetwork, hsplit, hport, hne]

/-- Witness for C8 (amended) at a concrete bootstrap exchange. -/
theorem joinNetwork_nodeId_check_witness :
    JoinNetwork nodeSelfW rtPing "127.0.0.1:8080" (.response 200 (.pong "pong" ""))
        = some (.error "invalid response from bootstrap node: missing node ID") ∧
    JoinNetwork nodeSelfW rtPing "127.0.0.1:8080" (.response 200 (.pong "pong" id01))
        = (AddNodeToRoutingTable rtPing ⟨id01, "127.0.0.1", 8080, 0⟩ zeros40).map
            (fun rt2 => .ok rt2) :=
  ⟨(joinNetwork_nodeId_check nodeSelfW rtPing "127.0.0.1:8080" "127.0.0.1" "8080" 8080
      "pong" id01 (by decide) (by decide)).1,
   (joinNetwork_nodeId_check nodeSelfW rtPing "127.0.0.1:8080" "127.0.0.1" "8080" 8080
      "pong" id01 (by decide) (by decide)).2 (by decide)⟩

/-! ## Claim C6 -/

/-- Claim C6: adding a distinct new contact `c` that maps to a full
bucket (head `h0`, exactly `MaxSize = k` entries) removes exactly the
head, appends `c` at the tail, keeps the other entries in order and
keeps the bucket size at `k`. -/
theorem addNode_fifo_eviction (rt : RoutingTable) (c : Node) (localID : String) (i : Nat)
    (hi : i < rt.Buckets.length) (h0 : Node) (rest : List Node) (k : Int)
    (hidx : bucketIndexOf localID c.ID = some i)
    (hbucket : rt.Buckets.get ⟨i, hi⟩ = ⟨h0 :: rest, k⟩)
    (hfull : ((h0 :: rest).length : Int) = k)
    (hnew : ∀ n ∈ h0 :: rest, n.ID ≠ c.ID) :
    AddNodeToRoutingTable rt c localID = some ⟨rt.Buckets.set i ⟨rest ++ [c], k⟩⟩ ∧
    (rest ++ [c]).length = (h0 :: rest).length := by
  obtain ⟨d, hcalc, h0le, htn⟩ : ∃ d, calculateXORDistance localID c.ID = some d ∧
      0 ≤ getBucketIndex d ∧ (getBucketIndex d).toNat = i := by
    unfold bucketIndexOf at hidx
    split at hidx
    · cases hidx
    · rename_i d hcalc
      by_cases h0le : 0 ≤ getBucketIndex d
      · rw [if_pos h0le] at hidx
        exact ⟨d, hcalc, h0le, Option.some.inj hidx⟩
      · rw [if_neg h0le] at hidx; cases hidx
  subst htn
  have hvalid : 0 ≤ getBucketIndex d ∧ (getBucketIndex d).toNat < rt.Buckets.length :=
    ⟨h0le, hi⟩
  refine ⟨?_, by simp⟩
  simp only [AddNodeToRoutingTable, hcalc]
  rw [dif_pos hvalid]
  have hbucket2 : rt.Buckets.get ⟨(getBucketIndex d).toNat, hvalid.2⟩ = ⟨h0 :: rest, k⟩ :=
    hbucket
  rw [hbucket2]
  have hany : (h0 :: rest).any (fun n => n.ID = c.ID) = false := by
    rw [List.any_eq_false]
    intro n hn
    simpa using hnew n hn
  simp only [hany, Bool.false_eq_true, if_false]
  rw [if_neg (by simp only [hfull]; omega)]

set_option maxRecDepth 20000 in
/-- Witness for C6: with capacity 1, bucket 7 holding `nodeIdab`,
adding `nodeIdaa` evicts the head and leaves `[nodeIdaa]`. -/
theorem addNode_fifo_eviction_witness :
    AddNodeToRoutingTable rtC6 nodeIdaa zeros40
      = some ⟨rtC6.Buckets.set 7 ⟨[] ++ [nodeIdaa], 1⟩⟩ ∧
    ([] ++ [nodeIdaa]).length = ([nodeIdab] : List Node).length :=
  addNode_fifo_eviction rtC6 nodeIdaa zeros40 7 (by decide) nodeIdab [] 1 (by decide)
    (by decide) (by decide) (by decide)

/-! ## Claim C4 -/

theorem mem_insertByDist {x p : Node × Nat} :
    ∀ {l : List (Node × Nat)}, x ∈ insertByDist p l → x = p ∨ x ∈ l := by
  intro l
  induction l with
  | nil =>
    intro h
    unfold insertByDist at h
    exact Or.inl (List.mem_singleton.mp h)
  | cons q qs ih =>
    intro h
    unfold insertByDist at h
    split at h
    · rcases List.mem_cons.mp h with h1 | h2
      · exact Or.inl h1
      · exact Or.inr h2
    · rcases List.mem_cons.mp h with h1 | h2
      · exact Or.inr (h1 ▸ List.mem_cons_self q qs)
      · rcases ih h2 with h3 | h4
        · exact Or.inl h3
        · exact Or.inr (List.mem_cons_of_mem q h4)

theorem pairwise_insertByDist {p : Node × Nat} :
    ∀ {l : List (Node × Nat)}, l.Pairwise (fun a b => a.2 ≤ b.2) →
      (insertByDist p l).Pairwise (fun a b => a.2 ≤ b.2) := by
  intro l
  induction l with
  | nil =>
    intro _
    unfold insertByDist
    exact List.pairwise_singleton _ _
  | cons q qs ih =>
    intro hp
    rw [List.pairwise_cons] at hp
    unfold insertByDist
    split
    · rename_i hlt
      rw [List.pairwise_cons]
      refine ⟨?_, List.pairwise_cons.mpr hp⟩
      intro b hb
      rcases List.mem_cons.mp hb with rfl | hb2
      · omega
      · have := hp.1 b hb2
        omega
    · rename_i hlt
      rw [List.pairwise_cons]
      refine ⟨?_, ih hp.2⟩
      intro b hb
      rcases mem_insertByDist hb with rfl | hb2
      · omega
      · exact hp.1 b hb2

theorem sortPairs_aux_mem {x : Node × Nat} :
    ∀ (l acc : List (Node × Nat)),
      x ∈ l.foldl (fun acc p => insertByDist p acc) acc → x ∈ acc ∨ x ∈ l := by
  intro l
  induction l with
  | nil =>
    intro acc h
    exact Or.inl h
  | cons p ps ih =>
    intro acc h
    rcases ih (insertByDist p acc) h with h1 | h2
    · rcases mem_insertByDist h1 with h3 | h3
      · exact Or.inr (by rw [h3]; exact List.mem_cons_self p ps)
      · exact Or.inl h3
    · exact Or.inr (List.mem_cons_of_mem p h2)

theorem sortPairs_aux_pairwise :
    ∀ (l acc : List (Node × Nat)), acc.Pairwise (fun a b => a.2 ≤ b.2) →
      (l.foldl (fun acc p => insertByDist p acc) acc).Pairwise (fun a b => a.2 ≤ b.2) := by
  intro l
  induction l with
  | nil => intro acc h; exact h
  | cons p ps ih => intro acc h; exact ih _ (pairwise_insertByDist h)

theorem mem_sortPairs {x : Node × Nat} {l : List (Node × Nat)} (h : x ∈ sortPairs l) :
    x ∈ l := by
  rcases sortPairs_aux_mem l [] h with h1 | h2
  · cases h1
  · exact h2

theorem pairwise_sortPairs (l : List (Node × Nat)) :
    (sortPairs l).Pairwise (fun a b => a.2 ≤ b.2) :=
  sortPairs_aux_pairwise l [] (List.Pairwise.nil)

theorem mapM_calc_of_pairs (q : String) :
    ∀ l : List (Node × Nat), (∀ p ∈ l, calculateXORDistance q p.1.ID = some p.2) →
      (l.map Prod.fst).mapM (fun n => calculateXORDistance q n.ID) = some (l.map Prod.snd) := by
  intro l
  induction l with
  | nil => intro _; rfl
  | cons p ps ih =>
    intro h
    simp only [List.map_cons, List.mapM_cons]
    rw [h p (List.mem_cons_self _ _), ih (fun r hr => h r (List.mem_cons_of_mem _ hr))]
    rfl

theorem collect_spec (q : String) :
    ∀ (ns : List Node) (ps : List (Node × Nat)),
      ns.mapM (fun n => (calculateXORDistance q n.ID).map (fun d => (n, d))) = some ps →
      ∀ p ∈ ps, calculateXORDistance q p.1.ID = some p.2 := by
  intro ns
  induction ns with
  | nil =>
    intro ps h p hp
    simp only [List.mapM_nil, Option.pure_def, Option.some.injEq] at h
    subst h
    cases hp
  | cons n ns ih =>
    intro ps h p hp
    rw [List.mapM_cons] at h
    cases hc : calculateXORDistance q n.ID with
    | none => rw [hc] at h; simp at h
    | some d =>
      rw [hc] at h
      cases hrest : ns.mapM (fun n => (calculateXORDistance q n.ID).map (fun d => (n, d))) with
      | none => rw [hrest] at h; simp at h
      | some ps2 =>
        rw [hrest] at h
        simp only [Option.map_some', Option.bind_some, Option.pure_def,
          Option.bind_eq_bind, Option.some_bind, Option.some.injEq] at h
        subst h
        rcases List.mem_cons.mp hp with rfl | hp2
        · exact hc
        · exact ih ps2 hrest p hp2

/-- Claim C4 (amended): `FindClosestNodes` returns at most `k` contacts
sorted ascending by XOR distance to the target; equal-distance ties
(possible only between distinct id strings with equal decoded value,
e.g. case variants) keep the table-traversal order of the sort, they
are not broken by lexicographic id order. -/
theorem findClosestNodes_sorted (rt : RoutingTable) (q localID : String) (kState : Int)
    (ns : List Node) (h : FindClosestNodes rt q localID kState = some ns) :
    ns.length ≤ (GetK kState).toNat ∧
    ∃ ds : List Nat, ns.mapM (fun n => calculateXORDistance q n.ID) = some ds ∧
      ds.Pairwise (fun a b => a ≤ b) := by
  simp only [FindClosestNodes] at h
  split at h
  · cases h
  · rename_i ps hps
    split at h
    · cases h
    · have hns : ns = ((sortPairs ps).take (GetK kState).toNat).map Prod.fst :=
        (Option.some.inj h).symm
      have hintake : ∀ p ∈ (sortPairs ps).take (GetK kState).toNat,
          calculateXORDistance q p.1.ID = some p.2 := by
        intro p hp
        exact collect_spec q _ ps hps p (mem_sortPairs (List.take_subset _ _ hp))
      refine ⟨?_, ((sortPairs ps).take (GetK kState).toNat).map Prod.snd, ?_, ?_⟩
      · rw [hns, List.length_map]
        exact le_trans (List.length_take_le _ _) (le_refl _)
      · rw [hns]
        exact mapM_calc_of_pairs q _ hintake
      · rw [List.pairwise_map]
        exact (pairwise_sortPairs ps).sublist (List.take_sublist _ _)

set_option maxRecDepth 20000 in
/-- Claim C4 counterexample: the two case-variant contacts are at the
same XOR distance from the target, the upper-case id is lexicographically
smaller, yet the handler returns the lower-case one first — table order,
not lexicographic tie-break. -/
theorem findClosestNodes_tie_not_lexicographic :
    calculateXORDistance zeros40 nodeIdab.ID = calculateXORDistance zeros40 nodeABu.ID ∧
    nodeABu.ID.data < nodeIdab.ID.data ∧
    nodeABu.ID ≠ nodeIdab.ID ∧
    FindClosestNodes rtC4 zeros40 zeros40 2 = some [nodeIdab, nodeABu] := by
  exact ⟨by decide, by decide, by decide, by decide⟩

set_option maxRecDepth 20000 in
/-- Witness for C4 (amended) on the concrete two-contact table. -/
theorem findClosestNodes_sorted_witness :
    ([nodeIdab, nodeABu] : List Node).length ≤ (GetK 2).toNat ∧
    ∃ ds : List Nat, ([nodeIdab, nodeABu] : List Node).mapM
        (fun n => calculateXORDistance zeros40 n.ID) = some ds ∧
      ds.Pairwise (fun a b => a ≤ b) :=
  findClosestNodes_sorted rtC4 zeros40 zeros40 2 [nodeIdab, nodeABu] (by decide)

/-! ## Claim C5 -/

theorem rtInv_new (localID nodeID : String) (kState : Int) :
    RTInv localID (GetK kState) (NewRoutingTable nodeID kState) := by
  constructor
  · intro b hb
    simp only [NewRoutingTable] at hb
    rw [List.eq_of_mem_replicate hb]
  · intro b hb
    simp only [NewRoutingTable] at hb
    rw [List.eq_of_mem_replicate hb]
    simp
  · intro i hi n hn
    simp only [NewRoutingTable, List.getElem_replicate] at hn
    cases hn
  · intro b hb
    simp only [NewRoutingTable] at hb
    rw [List.eq_of_mem_replicate hb]
    simp

theorem rtInv_set {localID : String} {k : Int} {rt : RoutingTable} (hinv : RTInv localID k rt)
    (i : Nat) (hi : i < rt.Buckets.length) (nb : Bucket)
    (hmax : nb.MaxSize = rt.Buckets[i].MaxSize)
    (hsize : nb.Nodes.length ≤ nb.MaxSize.toNat)
    (hplace : ∀ n ∈ nb.Nodes, bucketIndexOf localID n.ID = some i)
    (hnd : (nb.Nodes.map Node.ID).Nodup) :
    RTInv localID k ⟨rt.Buckets.set i nb⟩ := by
  constructor
  · intro b hb
    rcases List.mem_or_eq_of_mem_set hb with h1 | rfl
    · exact hinv.cap b h1
    · rw [hmax]
      exact hinv.cap _ (List.getElem_mem hi)
  · intro b hb
    rcases List.mem_or_eq_of_mem_set hb with h1 | rfl
    · exact hinv.size b h1
    · exact hsize
  · intro j hj n hn
    by_cases hij : i = j
    · subst hij
      rw [List.getElem_set_self] at hn
      exact hplace n hn
    · have hj2 : j < rt.Buckets.length := by simpa using hj
      rw [List.getElem_set_of_ne hij nb hj] at hn
      exact hinv.place j hj2 n hn
  · intro b hb
    rcases List.mem_or_eq_of_mem_set hb with h1 | rfl
    · exact hinv.nodup b h1
    · exact hnd

theorem rtInv_add {localID : String} {k : Int} {rt rt2 : RoutingTable} {target : Node}
    (hinv : RTInv localID k rt)
    (hadd : AddNodeToRoutingTable rt target localID = some rt2) :
    RTInv localID k rt2 := by
  simp only [AddNodeToRoutingTable, List.get_eq_getElem] at hadd
  split at hadd
  · cases hadd
  · rename_i d hcalc
    split at hadd
    case isFalse => cases hadd
    case isTrue hvalid =>
      have hbix : bucketIndexOf localID target.ID = some (getBucketIndex d).toNat := by
        simp only [bucketIndexOf, hcalc]
        rw [if_pos hvalid.1]
      split at hadd
      case isTrue =>
        injection hadd with h
        rw [← h]
        exact hinv
      case isFalse hany =>
        have hnotin : target.ID ∉ (rt.Buckets[(getBucketIndex d).toNat]).Nodes.map Node.ID := by
          intro hmem
          apply hany
          rw [List.any_eq_true]
          obtain ⟨n, hn, hid⟩ := List.mem_map.mp hmem
          exact ⟨n, hn, by simp [hid]⟩
        split at hadd
        case isTrue hlt =>
          injection hadd with h
          rw [← h]
          apply rtInv_set hinv (getBucketIndex d).toNat hvalid.2
          · rfl
          · simp only [List.length_append, List.length_singleton, List.length_cons,
              List.length_nil]
            omega
          · intro n hn
            rcases List.mem_append.mp hn with h1 | h2
            · exact hinv.place _ hvalid.2 n h1
            · rw [List.mem_singleton.mp h2]
              exact hbix
          · simp only [List.map_append, List.map_cons, List.map_nil]
            rw [List.nodup_append]
            refine ⟨hinv.nodup _ (List.getElem_mem hvalid.2), List.nodup_singleton _, ?_⟩
            intro a ha ha2
            rw [List.mem_singleton.mp ha2] at ha
            exact hnotin ha
        case isFalse hge =>
          split at hadd
          · cases hadd
          · rename_i h0 rest hnodes
            injection hadd with h
            rw [← h]
            apply rtInv_set hinv (getBucketIndex d).toNat hvalid.2
            · rfl
            · have hs := hinv.size _ (List.getElem_mem hvalid.2)
              rw [hnodes] at hs
              simp only [List.length_append, List.length_singleton, List.length_cons,
                List.length_nil] at hs ⊢
              omega
            · intro n hn
              rcases List.mem_append.mp hn with h1 | h2
              · exact hinv.place _ hvalid.2 n
                  (by rw [hnodes]; exact List.mem_cons_of_mem h0 h1)
              · rw [List.mem_singleton.mp h2]
                exact hbix
            · simp only [List.map_append, List.map_cons, List.map_nil]
              rw [List.nodup_append]
              have hnd0 := hinv.nodup _ (List.getElem_mem hvalid.2)
              rw [hnodes, List.map_cons] at hnd0
              refine ⟨(List.nodup_cons.mp hnd0).2, List.nodup_singleton _, ?_⟩
              intro a ha ha2
              rw [List.mem_singleton.mp ha2] at ha
              apply hnotin
              rw [hnodes, List.map_cons]
              exact List.mem_cons_of_mem _ ha

theorem rtInv_addAll {localID : String} {k : Int} :
    ∀ {cs : List Node} {rt rt2 : RoutingTable},
      RTInv localID k rt → addAll rt cs localID = some rt2 → RTInv localID k rt2 := by
  intro cs
  induction cs with
  | nil =>
    intro rt rt2 hinv h
    unfold addAll at h
    simp only [List.foldlM_nil, Option.pure_def, Option.some.injEq] at h
    rwa [← h]
  | cons c cs ih =>
    intro rt rt2 hinv h
    unfold addAll at h
    rw [List.foldlM_cons] at h
    cases hadd : AddNodeToRoutingTable rt c localID with
    | none =>
      rw [hadd] at h
      simp at h
    | some rt1 =>
      rw [hadd] at h
      simp only [Option.bind_eq_bind, Option.some_bind] at h
      exact ih (rtInv_add hinv hadd) h

theorem flat_ids_place (f : String → Option Nat) :
    ∀ (bs : List Bucket) (start : Nat),
      (∀ (j : Nat) (hj : j < bs.length), ∀ n ∈ bs[j].Nodes, f n.ID = some (start + j)) →
      ∀ a ∈ (bs.flatMap (fun b => b.Nodes)).map Node.ID,
        ∃ jj, f a = some (start + jj) := by
  intro bs
  induction bs with
  | nil =>
    intro start _ a ha
    simp at ha
  | cons b tl ih =>
    intro start h a ha
    rw [List.flatMap_cons, List.map_append, List.mem_append] at ha
    rcases ha with ha | ha
    · obtain ⟨n, hn, rfl⟩ := List.mem_map.mp ha
      exact ⟨0, h 0 (by simp) n (by simpa using hn)⟩
    · obtain ⟨jj, hjj⟩ := ih (start + 1)
        (fun j hj n hn => by
          have hh := h (j + 1) (by simpa using Nat.succ_lt_succ hj) n (by simpa using hn)
          rw [hh]
          congr 1
          omega) a ha
      refine ⟨jj + 1, ?_⟩
      rw [hjj]
      congr 1
      omega

theorem nodup_flat_of_place (f : String → Option Nat) :
    ∀ (bs : List Bucket) (start : Nat),
      (∀ (j : Nat) (hj : j < bs.length), ∀ n ∈ bs[j].Nodes, f n.ID = some (start + j)) →
      (∀ b ∈ bs, (b.Nodes.map Node.ID).Nodup) →
      ((bs.flatMap (fun b => b.Nodes)).map Node.ID).Nodup := by
  intro bs
  induction bs with
  | nil =>
    intro start _ _
    simp
  | cons b tl ih =>
    intro start hplace hnd
    rw [List.flatMap_cons, List.map_append, List.nodup_append]
    have htl : ∀ (j : Nat) (hj : j < tl.length), ∀ n ∈ tl[j].Nodes,
        f n.ID = some (start + 1 + j) := by
      intro j hj n hn
      have hh := hplace (j + 1) (by simpa using Nat.succ_lt_succ hj) n (by simpa using hn)
      rw [hh]
      congr 1
      omega
    refine ⟨hnd b (List.mem_cons_self _ _),
      ih (start + 1) htl (fun b2 hb2 => hnd b2 (List.mem_cons_of_mem _ hb2)), ?_⟩
    intro a ha ha2
    have h1 : f a = some (start + 0) := by
      obtain ⟨n, hn, rfl⟩ := List.mem_map.mp ha
      exact hplace 0 (by simp) n (by simpa using hn)
    obtain ⟨jj, hjj⟩ := flat_ids_place f tl (start + 1) htl a ha2
    rw [h1] at hjj
    have : start + 0 = start + 1 + jj := Option.some.inj hjj
    omega

/-- Claim C5: after any sequence of completed insertions into a fresh
routing table, no bucket holds more than the construction-time `k`
entries, and no contact id appears twice anywhere in the table. -/
theorem routingTable_invariants (localID : String) (kState : Int) (cs : List Node)
    (rt : RoutingTable) (h : addAll (NewRoutingTable localID kState) cs localID = some rt) :
    (∀ b ∈ rt.Buckets, b.Nodes.length ≤ (GetK kState).toNat) ∧
    ((rt.Buckets.flatMap (fun b => b.Nodes)).map Node.ID).Nodup := by
  have hinv := rtInv_addAll (rtInv_new localID localID kState) h
  constructor
  · intro b hb
    have hs := hinv.size b hb
    rwa [hinv.cap b hb] at hs
  · exact nodup_flat_of_place (bucketIndexOf localID) rt.Buckets 0
      (fun j hj n hn => by simpa using hinv.place j hj n hn) hinv.nodup

set_option maxRecDepth 20000 in
/-- Witness for C5 on a concrete two-insertion run that exercises the
eviction path. -/
theorem routingTable_invariants_witness :
    (∀ b ∈ rtC5w.Buckets, b.Nodes.length ≤ (GetK 1).toNat) ∧
    ((rtC5w.Buckets.flatMap (fun b => b.Nodes)).map Node.ID).Nodup :=
  routingTable_invariants zeros40 1 [nodeIdab, nodeIdaa] rtC5w (by decide)
